import Mathlib

/-!
Verification of the concurrent-dispatch / stats subsystem of a container CLI.

The Rust sources are shallowly embedded:
* `src/lib.rs`  : `get_port_bindings`, `start`, `stop`, `rm`, `rmi`
* `src/stats.rs`: `Containers::update`, `recv_stats`, the render pass of `stats`

Machine integers that are only ever displayed are modelled as `Nat`;
fallible operations return `Except String`; the engine client is a
parameter (a function from target to result), matching the mock-based
trait abstraction of the repository.  Spawned batch tasks are modelled as
completing with the engine call's result (task panics are out of scope).
-/

/-- One piece of the split of a character list at a separator character,
modelling Rust `str::split(c)` semantics: splitting the empty string gives
one empty field, and a trailing separator gives a trailing empty field. -/
def splitChar (c : Char) : List Char → List (List Char)
  | [] => [[]]
  | x :: xs =>
    let rest := splitChar c xs
    if x = c then [] :: rest
    else
      match rest with
      | [] => [[x]]
      | r :: rs => (x :: r) :: rs

/-- All colon-separated fields of a string (`input.split(':')` in Rust). -/
def colonFields (s : String) : List String :=
  (splitChar ':' s.toList).map (fun l => String.mk l)

/-- Model of Rust `input.rsplitn(3, ':')` collected into a list, in yield
order (rightmost field first): at most three pieces are produced and the
last piece keeps any remaining colons. -/
def rsplitn3 (s : String) : List String :=
  match (colonFields s).reverse with
  | [] => []
  | [a] => [a]
  | [a, b] => [a, b]
  | a :: b :: rest => [a, b, String.intercalate ":" rest.reverse]

/-- Model of `bollard::service::PortBinding`. -/
structure PortBinding where
  host_ip : Option String
  host_port : Option String
deriving DecidableEq, Repr

/-- The port-bindings map `HashMap<String, Option<Vec<PortBinding>>>`,
modelled as an association list in insertion order (lookup takes the
first match; keys are inserted at most once). -/
abbrev Bindings := List (String × Option (List PortBinding))

/-- Model of `bindings.entry(first).or_insert_with(|| Some(vec![]))` when only the
key needs to exist (lib.rs line 57-59). -/
def entryOr (m : Bindings) (k : String) : Bindings :=
  if (m.lookup k).isSome then m else m ++ [(k, some [])]

/-- Model of `entry.as_mut().unwrap().push(b)` after the `entry(..).or_insert_with`
of lib.rs lines 57-76: ensure the key holds `some` list, then append the
binding at the end of that key's list. -/
def entryPush (m : Bindings) (k : String) (b : PortBinding) : Bindings :=
  (entryOr m k).map (fun p => if p.1 = k then (p.1, p.2.map (fun l => l ++ [b])) else p)

/-- The loop body of `get_port_bindings` (lib.rs lines 47-77) folded over
the remaining input, carrying the accumulated map.  `rsplitn3` gives the
fields right-to-left: one field registers a bare container port, two add a
host port, three add host ip and host port; an empty split would be the
`wrap_err` "Invalid port binding" path. -/
def portBindingsGo (acc : Bindings) : List String → Except String Bindings
  | [] => Except.ok acc
  | s :: rest =>
    match rsplitn3 s with
    | [] => Except.error ("Invalid port binding " ++ s)
    | [first] => portBindingsGo (entryOr acc first) rest
    | [first, second] =>
      portBindingsGo (entryPush acc first (PortBinding.mk none (some second))) rest
    | first :: second :: third :: _ =>
      portBindingsGo (entryPush acc first (PortBinding.mk (some third) (some second))) rest

/-- Model of `get_port_bindings` (lib.rs lines 42-80). -/
def get_port_bindings (input : List String) : Except String Bindings :=
  portBindingsGo [] input

/-- Returns `true` on `Except.ok` (Rust `Result::is_ok`). -/
def isOkB {ε α : Type} : Except ε α → Bool
  | Except.ok _ => true
  | Except.error _ => false

theorem rsplitn3_ne_nil (s : String) : rsplitn3 s ≠ [] := by
  unfold rsplitn3
  have h : colonFields s ≠ [] := by
    unfold colonFields
    cases hs : splitChar ':' s.toList with
    | nil =>
      exfalso
      cases hl : s.toList with
      | nil => rw [hl] at hs; simp [splitChar] at hs
      | cons x xs =>
        rw [hl] at hs
        simp only [splitChar] at hs
        split at hs
        · exact List.cons_ne_nil _ _ hs
        · split at hs <;> simp_all
    | cons a l => simp
  cases hrev : (colonFields s).reverse with
  | nil => exact absurd (List.reverse_eq_nil_iff.mp hrev) h
  | cons a l =>
    cases l with
    | nil => simp
    | cons b l2 => cases l2 <;> simp

theorem rsplitn3_length (s : String) :
    1 ≤ (rsplitn3 s).length ∧ (rsplitn3 s).length ≤ 3 := by
  constructor
  · cases h : rsplitn3 s with
    | nil => exact absurd h (rsplitn3_ne_nil s)
    | cons a l => simp
  · unfold rsplitn3
    cases (colonFields s).reverse with
    | nil => simp
    | cons a l =>
      cases l with
      | nil => simp
      | cons b l2 => cases l2 <;> simp

theorem portBindingsGo_ok (input : List String) :
    ∀ acc : Bindings, isOkB (portBindingsGo acc input) = true := by
  induction input with
  | nil => intro acc; rfl
  | cons s rest ih =>
    intro acc
    unfold portBindingsGo
    cases h : rsplitn3 s with
    | nil => exact absurd h (rsplitn3_ne_nil s)
    | cons first l =>
      cases l with
      | nil => exact ih _
      | cons second l2 => cases l2 <;> exact ih _

/-- C1: parsing the list `["80", "443:8080", "127.0.0.1:80:8080"]` with
`get_port_bindings` yields exactly the map sending "80" to an empty
binding list and "8080" to the two bindings (no host ip, host port "443")
then (host ip "127.0.0.1", host port "80"), in input order, each string
having been split from the right into at most three colon fields. -/
theorem get_port_bindings_example :
    get_port_bindings ["80", "443:8080", "127.0.0.1:80:8080"] =
      Except.ok [("80", some []),
        ("8080", some [PortBinding.mk none (some "443"),
          PortBinding.mk (some "127.0.0.1") (some "80")])] := by
  rfl

/-- C2 counterexample: `"a:b:c:d"` has four colon-separated fields, yet
`get_port_bindings` does not fail on it: the right-split is capped at
three pieces, so the extra colon is absorbed into the host-ip field and
the parse succeeds. -/
theorem get_port_bindings_four_fields_ok :
    (colonFields "a:b:c:d").length = 4 ∧
    get_port_bindings ["a:b:c:d"] =
      Except.ok [("d", some [PortBinding.mk (some "a:b") (some "c")])] := by
  constructor <;> rfl

/-- C2 amended: `get_port_bindings` is total and never fails on any
input: the right-split of every string yields between one and three
fields (extra colons are absorbed into the leftmost piece), so no input
reaches the "Invalid port binding" error and no panic path is live. -/
theorem get_port_bindings_total (input : List String) (s : String) :
    isOkB (get_port_bindings input) = true ∧
    1 ≤ (rsplitn3 s).length ∧ (rsplitn3 s).length ≤ 3 :=
  ⟨portBindingsGo_ok input [], rsplitn3_length s⟩

/-- The per-outcome fold shared by `stop` (lib.rs 274-292), `rm`
(lib.rs 347-366) and the dispatch part of `start` (lib.rs 232-250):
returns (did any unit fail, stdout success lines in completion order,
error-severity log events as (target, error) pairs).  A success prints
the container identifier; a failure logs the identifier with the error. -/
def batchFold : List (String × Except String Unit) → Bool × List String × List (String × String)
  | [] => (false, [], [])
  | (c, Except.ok _) :: rest =>
    let r := batchFold rest
    (r.1, c :: r.2.1, r.2.2)
  | (c, Except.error e) :: rest =>
    let r := batchFold rest
    (true, r.2.1, (c, e) :: r.2.2)

/-- Observable behaviour of one batch call: the per-target outcomes in
spawn order, the stdout lines, the error-log events and the overall
result. -/
structure BatchReport where
  outcomes : List (String × Except String Unit)
  printed : List String
  logged : List (String × String)
  result : Except String Unit
deriving Repr

/-- Model of `stop` (lib.rs lines 263-297): spawn one `stop_container` per target,
join all, print successes, log failures, then `ensure!(!err, "Failed to
stop containers")`. -/
def stop (engine : String → Except String Unit) (containers : List String) : BatchReport :=
  let outcomes := containers.map (fun c => (c, engine c))
  let r := batchFold outcomes
  { outcomes := outcomes, printed := r.2.1, logged := r.2.2,
    result := if r.1 then Except.error "Failed to stop containers" else Except.ok () }

/-- Model of `bollard::container::RemoveContainerOptions` (the fields used). -/
structure RemoveContainerOptions where
  force : Bool
  v : Bool
  link : Bool
deriving DecidableEq, Repr

/-- Model of `rm` (lib.rs lines 324-371): same dispatch shape as `stop`, passing
the remove options to every `remove_container` call. -/
def rm (engine : RemoveContainerOptions → String → Except String Unit)
    (containers : List String) (force volumes link : Bool) : BatchReport :=
  let options : RemoveContainerOptions := ⟨force, volumes, link⟩
  let outcomes := containers.map (fun c => (c, engine options c))
  let r := batchFold outcomes
  { outcomes := outcomes, printed := r.2.1, logged := r.2.2,
    result := if r.1 then Except.error "Failed to remove containers" else Except.ok () }

/-- One element of the `remove_image` response
(`bollard::service::ImageDeleteResponseItem`, the fields used). -/
structure RemoveImageResponse where
  untagged : Option String
  deleted : Option String
deriving DecidableEq, Repr

/-- The stdout lines printed for one `remove_image` response item
(lib.rs lines 391-399). -/
def respLines (r : RemoveImageResponse) : List String :=
  (match r.untagged with
   | some u => ["Untagged: " ++ u]
   | none => []) ++
  (match r.deleted with
   | some d => ["Deleted: " ++ d]
   | none => [])

/-- The outcome fold of `rmi` (lib.rs 386-413): a success prints the
response's untagged/deleted lines (the image argument is not kept), a
failure logs only the error. -/
def rmiFold : List (Except String (List RemoveImageResponse)) → Bool × List String × List String
  | [] => (false, [], [])
  | Except.ok responses :: rest =>
    let r := rmiFold rest
    (r.1, (responses.map respLines).flatten ++ r.2.1, r.2.2)
  | Except.error e :: rest =>
    let r := rmiFold rest
    (true, r.2.1, e :: r.2.2)

/-- Observable behaviour of one `rmi` call; the error log carries only
the error text (no image identifier is captured by the spawned task). -/
structure RmiReport where
  outcomes : List (Except String (List RemoveImageResponse))
  printed : List String
  logged : List String
  result : Except String Unit
deriving Repr

/-- Model of `rmi` (lib.rs lines 373-418). -/
def rmi (engine : Bool → String → Except String (List RemoveImageResponse))
    (images : List String) (force : Bool) : RmiReport :=
  let outcomes := images.map (fun i => engine force i)
  let r := rmiFold outcomes
  { outcomes := outcomes, printed := r.2.1, logged := r.2.2,
    result := if r.1 then Except.error "Failed to remove images" else Except.ok () }

/-- Engine calls issued by `start`, in issue order. -/
inductive EngineCall
  | attachContainer (id : String)
  | startContainer (id : String)
deriving DecidableEq, Repr

/-- The distinct failure modes of `start` (lib.rs 199-261):
`multiAttach` is the `ensure!` precondition message "Can only attach to
one container at a time", `attachCallFailed` the propagated
`attach_container` error, `batchFailed` the `ensure!` message "Failed to
start containers", `attachJoinFailed` a propagated attach-task error. -/
inductive StartErr
  | multiAttach
  | attachCallFailed (e : String)
  | batchFailed
  | attachJoinFailed (e : String)
deriving DecidableEq, Repr

/-- The attach loop of `start` (lib.rs 215-219): call `attach_container`
on each target in order, stopping at the first error (the `?`); returns
the issued attach calls and the first error if any. -/
def attachPhase (attachRes : String → Except String Unit) :
    List String → List EngineCall × Option String
  | [] => ([], none)
  | c :: cs =>
    match attachRes c with
    | Except.ok _ =>
      let r := attachPhase attachRes cs
      (EngineCall.attachContainer c :: r.1, r.2)
    | Except.error e => ([EngineCall.attachContainer c], some e)

/-- The attach-task join of `start` (lib.rs 254-258): the loop of
lib.rs 216-218 overwrote `attach_join` each iteration, so only the tasks
of the last attached container are joined; `joinRes` gives the first
error among that container's attach tasks. -/
def joinAttach (joinRes : String → Except String Unit) (containers : List String) :
    Option String :=
  match containers.getLast? with
  | some c =>
    match joinRes c with
    | Except.ok _ => none
    | Except.error e => some e
  | none => none

/-- Observable behaviour of one `start` call: every engine call issued
(attach and start) in order, plus the dispatch report fields. -/
structure StartReport where
  calls : List EngineCall
  outcomes : List (String × Except String Unit)
  printed : List String
  logged : List (String × String)
  result : Except StartErr Unit
deriving Repr

/-- Model of `start` (lib.rs lines 199-261): the `ensure!` precondition, then the
optional attach phase, then one spawned `start_container` per target
joined and folded like `stop`, then the attach-task join. -/
def start (attachRes startRes joinRes : String → Except String Unit)
    (containers : List String) (attach interactive : Bool) : StartReport :=
  if containers.length == 1 || (!attach && !interactive) then
    let ap := if attach || interactive then attachPhase attachRes containers else ([], none)
    match ap.2 with
    | some e =>
      { calls := ap.1, outcomes := [], printed := [], logged := [],
        result := Except.error (StartErr.attachCallFailed e) }
    | none =>
      let outcomes := containers.map (fun c => (c, startRes c))
      let r := batchFold outcomes
      let calls := ap.1 ++ containers.map EngineCall.startContainer
      if r.1 then
        { calls := calls, outcomes := outcomes, printed := r.2.1, logged := r.2.2,
          result := Except.error StartErr.batchFailed }
      else if attach || interactive then
        match joinAttach joinRes containers with
        | some e =>
          { calls := calls, outcomes := outcomes, printed := r.2.1, logged := r.2.2,
            result := Except.error (StartErr.attachJoinFailed e) }
        | none =>
          { calls := calls, outcomes := outcomes, printed := r.2.1, logged := r.2.2,
            result := Except.ok () }
      else
        { calls := calls, outcomes := outcomes, printed := r.2.1, logged := r.2.2,
          result := Except.ok () }
  else
    { calls := [], outcomes := [], printed := [], logged := [],
      result := Except.error StartErr.multiAttach }

theorem batchFold_err (l : List (String × Except String Unit)) :
    (batchFold l).1 = true ↔ ∃ p ∈ l, isOkB p.2 = false := by
  induction l with
  | nil => simp [batchFold]
  | cons p rest ih =>
    obtain ⟨c, r⟩ := p
    cases r with
    | ok u => simp [batchFold, isOkB, ih]
    | error e => simp [batchFold, isOkB]

theorem batchFold_printed (l : List (String × Except String Unit)) :
    (batchFold l).2.1 = l.filterMap
      (fun p => match p.2 with
        | Except.ok _ => some p.1
        | Except.error _ => none) := by
  induction l with
  | nil => simp [batchFold]
  | cons p rest ih =>
    obtain ⟨c, r⟩ := p
    cases r with
    | ok u => simp [batchFold, ih]
    | error e => simp [batchFold, ih]

theorem batchFold_logged (l : List (String × Except String Unit)) :
    (batchFold l).2.2 = l.filterMap
      (fun p => match p.2 with
        | Except.ok _ => none
        | Except.error e => some (p.1, e)) := by
  induction l with
  | nil => simp [batchFold]
  | cons p rest ih =>
    obtain ⟨c, r⟩ := p
    cases r with
    | ok u => simp [batchFold, ih]
    | error e => simp [batchFold, ih]

theorem rmiFold_err (l : List (Except String (List RemoveImageResponse))) :
    (rmiFold l).1 = true ↔ ∃ o ∈ l, isOkB o = false := by
  induction l with
  | nil => simp [rmiFold]
  | cons o rest ih =>
    cases o with
    | ok rs => simp [rmiFold, isOkB, ih]
    | error e => simp [rmiFold, isOkB]

theorem rmiFold_printed (l : List (Except String (List RemoveImageResponse))) :
    (rmiFold l).2.1 = (l.map
      (fun o => match o with
        | Except.ok rs => (rs.map respLines).flatten
        | Except.error _ => [])).flatten := by
  induction l with
  | nil => simp [rmiFold]
  | cons o rest ih =>
    cases o with
    | ok rs => simp [rmiFold, ih]
    | error e => simp [rmiFold, ih]

theorem rmiFold_logged (l : List (Except String (List RemoveImageResponse))) :
    (rmiFold l).2.2 = l.filterMap
      (fun o => match o with
        | Except.ok _ => none
        | Except.error e => some e) := by
  induction l with
  | nil => simp [rmiFold]
  | cons o rest ih =>
    cases o with
    | ok rs => simp [rmiFold, ih]
    | error e => simp [rmiFold, ih]

theorem isOkB_ite_false {ε : Type} (b : Bool) (e : ε) :
    isOkB (if b then Except.error e else Except.ok ()) = false ↔ b = true := by
  cases b <;> simp [isOkB]

theorem map_fst_pair {α β : Type} (f : α → β) (l : List α) :
    (l.map fun c => (c, f c)).map Prod.fst = l := by
  induction l with
  | nil => rfl
  | cons a t ih => simp_all

theorem stop_result_eq (engine : String → Except String Unit) (containers : List String) :
    (stop engine containers).result =
      (if (batchFold (containers.map fun c => (c, engine c))).1
       then Except.error "Failed to stop containers" else Except.ok ()) := rfl

theorem stop_err_iff (engine : String → Except String Unit) (containers : List String) :
    isOkB (stop engine containers).result = false ↔
      ∃ c ∈ containers, isOkB (engine c) = false := by
  rw [stop_result_eq, isOkB_ite_false, batchFold_err]
  simp

theorem rm_result_eq (engine : RemoveContainerOptions → String → Except String Unit)
    (containers : List String) (force volumes link : Bool) :
    (rm engine containers force volumes link).result =
      (if (batchFold (containers.map fun c => (c, engine ⟨force, volumes, link⟩ c))).1
       then Except.error "Failed to remove containers" else Except.ok ()) := rfl

theorem rm_err_iff (engine : RemoveContainerOptions → String → Except String Unit)
    (containers : List String) (force volumes link : Bool) :
    isOkB (rm engine containers force volumes link).result = false ↔
      ∃ c ∈ containers, isOkB (engine ⟨force, volumes, link⟩ c) = false := by
  rw [rm_result_eq, isOkB_ite_false, batchFold_err]
  simp

theorem rmi_result_eq (engine : Bool → String → Except String (List RemoveImageResponse))
    (images : List String) (force : Bool) :
    (rmi engine images force).result =
      (if (rmiFold (images.map fun i => engine force i)).1
       then Except.error "Failed to remove images" else Except.ok ()) := rfl

theorem rmi_err_iff (engine : Bool → String → Except String (List RemoveImageResponse))
    (images : List String) (force : Bool) :
    isOkB (rmi engine images force).result = false ↔
      ∃ i ∈ images, isOkB (engine force i) = false := by
  rw [rmi_result_eq, isOkB_ite_false, rmiFold_err]
  simp

theorem start_no_attach_eq (ar sr jr : String → Except String Unit)
    (containers : List String) :
    start ar sr jr containers false false =
      { calls := containers.map EngineCall.startContainer,
        outcomes := containers.map fun c => (c, sr c),
        printed := (batchFold (containers.map fun c => (c, sr c))).2.1,
        logged := (batchFold (containers.map fun c => (c, sr c))).2.2,
        result := if (batchFold (containers.map fun c => (c, sr c))).1
                  then Except.error StartErr.batchFailed else Except.ok () } := by
  unfold start
  simp
  split <;> rfl

theorem start_no_attach_result (ar sr jr : String → Except String Unit)
    (containers : List String) :
    (start ar sr jr containers false false).result =
      (if (batchFold (containers.map fun c => (c, sr c))).1
       then Except.error StartErr.batchFailed else Except.ok ()) := by
  rw [start_no_attach_eq]

theorem start_no_attach_err_iff (ar sr jr : String → Except String Unit)
    (containers : List String) :
    isOkB (start ar sr jr containers false false).result = false ↔
      ∃ c ∈ containers, isOkB (sr c) = false := by
  rw [start_no_attach_result, isOkB_ite_false, batchFold_err]
  simp

/-- C3: for each batch operation (`stop`, `rm`, `rmi`, and the dispatch
of `start` without attach), every target in the input list gets exactly
one engine call, in input order and regardless of other targets'
failures, and the overall result is the aggregate batch-failed error if
and only if at least one per-target call failed (so with zero failures
the result is `ok`). -/
theorem batch_dispatch_complete_and_failure_iff
    (stopE : String → Except String Unit)
    (rmE : RemoveContainerOptions → String → Except String Unit)
    (rmiE : Bool → String → Except String (List RemoveImageResponse))
    (ar sr jr : String → Except String Unit)
    (containers images : List String) (force volumes link : Bool) :
    ((stop stopE containers).outcomes.map Prod.fst = containers ∧
      (isOkB (stop stopE containers).result = false ↔
        ∃ c ∈ containers, isOkB (stopE c) = false)) ∧
    ((rm rmE containers force volumes link).outcomes.map Prod.fst = containers ∧
      (isOkB (rm rmE containers force volumes link).result = false ↔
        ∃ c ∈ containers, isOkB (rmE ⟨force, volumes, link⟩ c) = false)) ∧
    ((rmi rmiE images force).outcomes = images.map (fun i => rmiE force i) ∧
      (isOkB (rmi rmiE images force).result = false ↔
        ∃ i ∈ images, isOkB (rmiE force i) = false)) ∧
    ((start ar sr jr containers false false).outcomes.map Prod.fst = containers ∧
      (start ar sr jr containers false false).calls =
        containers.map EngineCall.startContainer ∧
      (isOkB (start ar sr jr containers false false).result = false ↔
        ∃ c ∈ containers, isOkB (sr c) = false)) := by
  refine ⟨⟨map_fst_pair _ _, stop_err_iff _ _⟩,
    ⟨map_fst_pair _ _, rm_err_iff _ _ _ _ _⟩,
    ⟨rfl, rmi_err_iff _ _ _⟩, ?_, ?_, start_no_attach_err_iff _ _ _ _⟩
  · rw [start_no_attach_eq]
    exact map_fst_pair _ _
  · rw [start_no_attach_eq]

/-- C4: when attach or interactive mode is requested and the target list
does not have exactly one element, `start` fails with the
multi-attach precondition error before issuing any engine call (its call
trace is empty); with exactly one target, or with attach and interactive
both false, the precondition never produces that error. -/
theorem start_multi_attach_precondition
    (ar sr jr : String → Except String Unit) (containers : List String)
    (attach interactive : Bool) :
    ((attach = true ∨ interactive = true) → containers.length ≠ 1 →
      start ar sr jr containers attach interactive =
        { calls := [], outcomes := [], printed := [], logged := [],
          result := Except.error StartErr.multiAttach }) ∧
    ((containers.length = 1 ∨ (attach = false ∧ interactive = false)) →
      (start ar sr jr containers attach interactive).result ≠
        Except.error StartErr.multiAttach) := by
  constructor
  · intro hmode hlen
    have hcond : (containers.length == 1 || (!attach && !interactive)) = false := by
      rcases hmode with h | h <;> subst h <;> simp_all
    unfold start
    rw [hcond]
    simp
  · intro hpass
    have hcond : (containers.length == 1 || (!attach && !interactive)) = true := by
      rcases hpass with h | ⟨h1, h2⟩ <;> simp_all
    unfold start
    rw [hcond]
    simp only [if_true]
    split
    · simp
    · split
      · simp
      · split
        · split <;> simp
        · simp

/-- Witness for C4 at concrete inputs: two targets with attach requested
fail with the precondition error and an empty call trace, while a single
target with attach requested gets past the precondition. -/
theorem start_multi_attach_precondition_witness :
    start (fun _ => Except.ok ()) (fun _ => Except.ok ()) (fun _ => Except.ok ())
        ["a", "b"] true false =
      { calls := [], outcomes := [], printed := [], logged := [],
        result := Except.error StartErr.multiAttach } ∧
    (start (fun _ => Except.ok ()) (fun _ => Except.ok ()) (fun _ => Except.ok ())
        ["a"] true false).result ≠ Except.error StartErr.multiAttach := by
  have h := start_multi_attach_precondition (fun _ => Except.ok ())
    (fun _ => Except.ok ()) (fun _ => Except.ok ()) ["a", "b"] true false
  have h2 := start_multi_attach_precondition (fun _ => Except.ok ())
    (fun _ => Except.ok ()) (fun _ => Except.ok ()) ["a"] true false
  exact ⟨h.1 (Or.inl rfl) (by decide), h2.2 (Or.inl rfl)⟩

/-- C8 counterexample: an `rmi` target whose removal succeeds with an
empty response list has nothing printed for it at all — in particular its
identifier "img1" appears on no stdout line — and a failing `rmi` target
is logged as the bare error text with no image identifier attached. -/
theorem rmi_success_line_lacks_identifier :
    (rmi (fun _ _ => Except.ok []) ["img1"] false).result = Except.ok () ∧
    (rmi (fun _ _ => Except.ok []) ["img1"] false).printed = [] ∧
    (rmi (fun _ _ => Except.error "boom") ["img1"] false).logged = ["boom"] :=
  ⟨rfl, rfl, rfl⟩

/-- C8 amended: for `stop`, `rm` and the dispatch of `start`, every
successful target's identifier is printed as a stdout success line and
every failed target is logged at error severity as the pair (identifier,
error); for `rmi`, a success prints the engine response's "Untagged:" and
"Deleted:" reference lines instead of the target identifier (possibly no
line at all) and a failure logs only the error, without the image
identifier. -/
theorem batch_success_printed_failure_logged
    (stopE : String → Except String Unit)
    (rmE : RemoveContainerOptions → String → Except String Unit)
    (rmiE : Bool → String → Except String (List RemoveImageResponse))
    (ar sr jr : String → Except String Unit)
    (containers images : List String) (force volumes link : Bool) :
    ((stop stopE containers).printed =
        (containers.map fun c => (c, stopE c)).filterMap
          (fun p => match p.2 with
            | Except.ok _ => some p.1
            | Except.error _ => none) ∧
      (stop stopE containers).logged =
        (containers.map fun c => (c, stopE c)).filterMap
          (fun p => match p.2 with
            | Except.ok _ => none
            | Except.error e => some (p.1, e))) ∧
    ((rm rmE containers force volumes link).printed =
        (containers.map fun c => (c, rmE ⟨force, volumes, link⟩ c)).filterMap
          (fun p => match p.2 with
            | Except.ok _ => some p.1
            | Except.error _ => none) ∧
      (rm rmE containers force volumes link).logged =
        (containers.map fun c => (c, rmE ⟨force, volumes, link⟩ c)).filterMap
          (fun p => match p.2 with
            | Except.ok _ => none
            | Except.error e => some (p.1, e))) ∧
    ((start ar sr jr containers false false).printed =
        (containers.map fun c => (c, sr c)).filterMap
          (fun p => match p.2 with
            | Except.ok _ => some p.1
            | Except.error _ => none) ∧
      (start ar sr jr containers false false).logged =
        (containers.map fun c => (c, sr c)).filterMap
          (fun p => match p.2 with
            | Except.ok _ => none
            | Except.error e => some (p.1, e))) ∧
    ((rmi rmiE images force).printed =
        ((images.map fun i => rmiE force i).map
          (fun o => match o with
            | Except.ok rs => (rs.map respLines).flatten
            | Except.error _ => [])).flatten ∧
      (rmi rmiE images force).logged =
        (images.map fun i => rmiE force i).filterMap
          (fun o => match o with
            | Except.ok _ => none
            | Except.error e => some e)) := by
  refine ⟨⟨batchFold_printed _, batchFold_logged _⟩,
    ⟨batchFold_printed _, batchFold_logged _⟩, ⟨?_, ?_⟩,
    ⟨rmiFold_printed _, rmiFold_logged _⟩⟩
  · rw [start_no_attach_eq]
    exact batchFold_printed _
  · rw [start_no_attach_eq]
    exact batchFold_logged _

/-- Field `cpu_stats.cpu_usage` of a `bollard::container::Stats` sample (the
field used by the render loop). -/
structure CpuUsage where
  total_usage : Nat
deriving DecidableEq, Repr

/-- Field `cpu_stats` of a stats sample. -/
structure CpuStats where
  cpu_usage : CpuUsage
deriving DecidableEq, Repr

/-- Field `memory_stats` of a stats sample; `usage` may be absent. -/
structure MemoryStats where
  usage : Option Nat
deriving DecidableEq, Repr

/-- The one-network summary of a stats sample; `network` itself may be
absent from the sample. -/
structure NetworkStats where
  rx_bytes : Nat
deriving DecidableEq, Repr

/-- Field `storage_stats` of a stats sample; both byte counters may be absent. -/
structure StorageStats where
  read_size_bytes : Option Nat
  write_size_bytes : Option Nat
deriving DecidableEq, Repr

/-- Model of `bollard::container::Stats`, restricted to the fields the render
loop of stats.rs lines 113-151 reads. -/
structure Stats where
  id : String
  name : String
  cpu_stats : CpuStats
  memory_stats : MemoryStats
  network : Option NetworkStats
  storage_stats : StorageStats
deriving DecidableEq, Repr

/-- The memory column (stats.rs 127-131): the usage counter, or "-" when
absent. -/
def memoryField (stat : Stats) : String :=
  (stat.memory_stats.usage.map toString).getD "-"

/-- The network column (stats.rs 133-136): the RX byte counter, or "-"
when the sample has no network summary. -/
def networkField (stat : Stats) : String :=
  (stat.network.map (fun s => toString s.rx_bytes)).getD "-"

/-- The block-I/O read counter (stats.rs 138-141), or "-" when absent. -/
def readField (stat : Stats) : String :=
  (stat.storage_stats.read_size_bytes.map toString).getD "-"

/-- The block-I/O write counter (stats.rs 142-145), or "-" when absent. -/
def writeField (stat : Stats) : String :=
  (stat.storage_stats.write_size_bytes.map toString).getD "-"

/-- One rendered row (the `println!` of stats.rs 147-150): the sample's
id (as stored, untruncated), name, total CPU usage, memory, network and
"read/write" block I/O, tab separated. -/
def renderRow (stat : Stats) : String :=
  stat.id ++ "\t" ++ stat.name ++ "\t" ++
    toString stat.cpu_stats.cpu_usage.total_usage ++ "\t" ++
    memoryField stat ++ "\t" ++ networkField stat ++ "\t" ++
    readField stat ++ "/" ++ writeField stat

/-- The fixed header line printed by every render pass (stats.rs 111). -/
def headerLine : String :=
  "Container ID\tName\tCPU\tMemory\tNetwork\tBlock I/O"

/-- The row loop of one render pass (stats.rs 113-151) over the cache's
cell values in enumeration order: an empty cell is skipped (`continue`),
a populated one yields one row. -/
def renderRows : List (Option Stats) → List String
  | [] => []
  | none :: rest => renderRows rest
  | some stat :: rest => renderRow stat :: renderRows rest

/-- One full render pass of the stats loop (stats.rs 106-154, screen
clearing aside): the header line followed by the rows. -/
def renderPass (cells : List (Option Stats)) : List String :=
  headerLine :: renderRows cells

/-- The 12-character truncation that produces a short container id
elsewhere in the repository (list.rs line 57); the stats render loop
does not apply it. -/
def shortId (id : String) : String :=
  String.mk (id.toList.take 12)

/-- The first tab-separated field of a printed line. -/
def firstField (s : String) : String :=
  String.mk ((splitChar '\t' s.toList).headD [])

theorem renderRows_eq_filterMap (cells : List (Option Stats)) :
    renderRows cells = (cells.filterMap id).map renderRow := by
  induction cells with
  | nil => rfl
  | cons c rest ih =>
    cases c with
    | none => simpa [renderRows] using ih
    | some stat => simp [renderRows, ih]

theorem splitChar_append (c : Char) (l1 l2 : List Char) (h : c ∉ l1) :
    splitChar c (l1 ++ c :: l2) = l1 :: splitChar c l2 := by
  induction l1 with
  | nil => simp [splitChar]
  | cons x xs ih =>
    have hx : x ≠ c := by
      intro he
      exact h (by simp [he])
    have hxs : c ∉ xs := fun hm => h (List.mem_cons_of_mem _ hm)
    simp only [List.cons_append, splitChar, if_neg hx, List.append_eq]
    rw [ih hxs]

/-- C5: every render pass prints the fixed tab-separated header first,
then exactly one row per populated cache cell in enumeration order
(empty cells are skipped, producing no row at all), and the memory,
network and block-I/O read/write columns each render as "-" when the
corresponding value is absent from the snapshot. -/
theorem render_pass_shape (cells : List (Option Stats)) :
    (renderPass cells).head? = some headerLine ∧
    (renderPass cells).tail = (cells.filterMap id).map renderRow ∧
    (renderPass cells).length = 1 + (cells.filterMap id).length ∧
    (∀ stat : Stats, stat.memory_stats.usage = none → memoryField stat = "-") ∧
    (∀ stat : Stats, stat.network = none → networkField stat = "-") ∧
    (∀ stat : Stats, stat.storage_stats.read_size_bytes = none → readField stat = "-") ∧
    (∀ stat : Stats, stat.storage_stats.write_size_bytes = none → writeField stat = "-") := by
  refine ⟨rfl, renderRows_eq_filterMap cells, ?_, ?_, ?_, ?_, ?_⟩
  · simp [renderPass, renderRows_eq_filterMap, Nat.add_comm]
  · intro stat h
    simp [memoryField, h]
  · intro stat h
    simp [networkField, h]
  · intro stat h
    simp [readField, h]
  · intro stat h
    simp [writeField, h]

/-- A concrete snapshot with a 16-character id and every optional metric
absent, used to evaluate the render theorems. -/
def sparseStat : Stats :=
  { id := "0123456789abcdef", name := "/name", cpu_stats := ⟨⟨7⟩⟩,
    memory_stats := ⟨none⟩, network := none,
    storage_stats := ⟨none, none⟩ }

/-- Witness for C5 at a concrete cache: one empty cell and one populated
cell with all optional metrics absent render as the header plus a single
row of placeholders. -/
theorem render_pass_shape_witness :
    (renderPass [none, some sparseStat]).head? = some headerLine ∧
    (renderPass [none, some sparseStat]).tail = [renderRow sparseStat] ∧
    memoryField sparseStat = "-" ∧
    networkField sparseStat = "-" ∧
    readField sparseStat = "-" ∧
    writeField sparseStat = "-" := by
  have h := render_pass_shape [none, some sparseStat]
  exact ⟨h.1, h.2.1.trans (by rfl), h.2.2.2.1 sparseStat rfl, h.2.2.2.2.1 sparseStat rfl,
    h.2.2.2.2.2.1 sparseStat rfl, h.2.2.2.2.2.2 sparseStat rfl⟩

/-- C6 counterexample: the render loop prints the stored id untruncated.
For a snapshot whose id is the 16 characters "0123456789abcdef", the
first tab-separated field of its rendered row is the full id, which
differs from the 12-character short id used elsewhere for display. -/
theorem stats_row_id_not_truncated :
    firstField (renderRow sparseStat) = "0123456789abcdef" ∧
    shortId "0123456789abcdef" = "0123456789ab" ∧
    "0123456789abcdef" ≠ shortId "0123456789abcdef" := by
  refine ⟨rfl, rfl, ?_⟩
  decide

/-- C6 amended: for every rendered snapshot the first field of the row
is the full, untruncated container id, followed by the name, the CPU
usage counter, the memory usage, the network RX bytes and the block-I/O
read/write byte counts joined as "read/write". -/
theorem stats_row_fields (stat : Stats) (h : '\t' ∉ stat.id.toList) :
    firstField (renderRow stat) = stat.id ∧
    renderRow stat = stat.id ++ "\t" ++ stat.name ++ "\t" ++
      toString stat.cpu_stats.cpu_usage.total_usage ++ "\t" ++
      memoryField stat ++ "\t" ++ networkField stat ++ "\t" ++
      readField stat ++ "/" ++ writeField stat := by
  refine ⟨?_, rfl⟩
  have hlist : (renderRow stat).toList = stat.id.toList ++ '\t' ::
      (stat.name ++ "\t" ++ toString stat.cpu_stats.cpu_usage.total_usage ++ "\t" ++
        memoryField stat ++ "\t" ++ networkField stat ++ "\t" ++
        readField stat ++ "/" ++ writeField stat).toList := by
    simp [renderRow, String.toList]
  rw [firstField, hlist, splitChar_append _ _ _ h]
  simp

/-- Witness for C6 amended at the concrete snapshot: the first field of
its row is exactly its full id. -/
theorem stats_row_fields_witness :
    firstField (renderRow sparseStat) = sparseStat.id :=
  (stats_row_fields sparseStat (by decide)).1

/-- Model of `bollard::service::ContainerSummary`, restricted to the `id` field
used by the discovery loop (it is optional in the wire type). -/
structure ContainerSummary where
  id : Option String
deriving DecidableEq, Repr

/-- The shared stats cache `HashMap<String, Arc<Mutex<Option<Stats>>>>`
of stats.rs line 23, modelled as an association list from container id
to the cell's current contents, in insertion order. -/
abbrev StatsCache := List (String × Option Stats)

/-- Model of `Containers::update` (stats.rs lines 33-61): walk the listed
containers; a summary without an id is the `wrap_err "Conainer without
id"` error (stopping the walk); an id already present as a key is
skipped; a new id gets an empty cell inserted and a poller spawned for
it.  Returns the new cache, the ids a poller was spawned for (in spawn
order) and the result. -/
def update (cache : StatsCache) :
    List ContainerSummary → StatsCache × List String × Except String Unit
  | [] => (cache, [], Except.ok ())
  | c :: cs =>
    match c.id with
    | none => (cache, [], Except.error "Conainer without id")
    | some id =>
      if (cache.lookup id).isSome then
        update cache cs
      else
        let r := update (cache ++ [(id, none)]) cs
        (r.1, id :: r.2.1, r.2.2)

/-- Model of `recv_stats` (stats.rs lines 64-84) acting on its cell: the metrics
stream is a list of items; each `Ok` sample replaces the cell's value
(`stat.lock().await.replace(item?)`), an `Err` item propagates out via
`?` leaving the cell as it was, and when the stream ends the cell is
cleared (`stat.lock().await.take()`).  Returns the final cell contents
and the task's result. -/
def recv_stats (cell : Option Stats) :
    List (Except String Stats) → Option Stats × Except String Unit
  | [] => (none, Except.ok ())
  | Except.ok s :: rest => recv_stats (some s) rest
  | Except.error e :: _ => (cell, Except.error e)

theorem lookup_append {α : Type} (l1 l2 : List (String × α)) (k : String) :
    (l1 ++ l2).lookup k = ((l1.lookup k).orElse fun _ => l2.lookup k) := by
  induction l1 with
  | nil => simp [Option.orElse]
  | cons p rest ih =>
    obtain ⟨a, b⟩ := p
    by_cases hk : k == a
    · simp [List.lookup, hk, Option.orElse]
    · simp only [List.cons_append, List.lookup, hk]
      exact ih

theorem update_cache_eq (cs : List ContainerSummary) :
    ∀ cache : StatsCache,
      (update cache cs).1 = cache ++ ((update cache cs).2.1.map fun i => (i, none)) := by
  induction cs with
  | nil => intro cache; simp [update]
  | cons c rest ih =>
    intro cache
    cases hid : c.id with
    | none => simp [update, hid]
    | some id =>
      by_cases hmem : (cache.lookup id).isSome
      · simpa [update, hid, hmem] using ih cache
      · have := ih (cache ++ [(id, none)])
        simp only [update, hid, hmem, if_false, List.map_cons]
        rw [this]
        simp

theorem update_spawned_new (cs : List ContainerSummary) :
    ∀ cache : StatsCache, ∀ i ∈ (update cache cs).2.1, cache.lookup i = none := by
  induction cs with
  | nil => intro cache i hi; simp [update] at hi
  | cons c rest ih =>
    intro cache i hi
    cases hid : c.id with
    | none => simp [update, hid] at hi
    | some id =>
      by_cases hmem : (cache.lookup id).isSome
      · rw [update, hid] at hi
        simp only [hmem, if_true] at hi
        exact ih cache i hi
      · rw [update, hid] at hi
        simp only [hmem, if_false] at hi
        rcases List.mem_cons.mp hi with h | h
        · subst h
          exact Option.not_isSome_iff_eq_none.mp hmem
        · have h2 := ih (cache ++ [(id, none)]) i h
          rw [lookup_append] at h2
          cases hc : cache.lookup i with
          | none => rfl
          | some v => rw [hc] at h2; simp [Option.orElse] at h2

theorem update_spawned_listed (cs : List ContainerSummary) :
    ∀ cache : StatsCache, ∀ i ∈ (update cache cs).2.1, ∃ c ∈ cs, c.id = some i := by
  induction cs with
  | nil => intro cache i hi; simp [update] at hi
  | cons c rest ih =>
    intro cache i hi
    cases hid : c.id with
    | none => simp [update, hid] at hi
    | some id =>
      by_cases hmem : (cache.lookup id).isSome
      · rw [update, hid] at hi
        simp only [hmem, if_true] at hi
        obtain ⟨c2, hc2, hc2id⟩ := ih cache i hi
        exact ⟨c2, List.mem_cons_of_mem _ hc2, hc2id⟩
      · rw [update, hid] at hi
        simp only [hmem, if_false] at hi
        rcases List.mem_cons.mp hi with h | h
        · subst h
          exact ⟨c, List.mem_cons_self _ _, hid⟩
        · obtain ⟨c2, hc2, hc2id⟩ := ih (cache ++ [(id, none)]) i h
          exact ⟨c2, List.mem_cons_of_mem _ hc2, hc2id⟩

theorem update_spawned_nodup (cs : List ContainerSummary) :
    ∀ cache : StatsCache, (update cache cs).2.1.Nodup := by
  induction cs with
  | nil => intro cache; simp [update]
  | cons c rest ih =>
    intro cache
    cases hid : c.id with
    | none => simp [update, hid]
    | some id =>
      by_cases hmem : (cache.lookup id).isSome
      · rw [update, hid]
        simp only [hmem, if_true]
        exact ih cache
      · rw [update, hid]
        simp only [hmem, if_false]
        refine List.nodup_cons.mpr ⟨?_, ih (cache ++ [(id, none)])⟩
        intro hmem2
        have h2 := update_spawned_new rest (cache ++ [(id, none)]) id hmem2
        rw [lookup_append] at h2
        rw [Option.not_isSome_iff_eq_none.mp hmem] at h2
        simp [Option.orElse, List.lookup] at h2

theorem update_extends (cs : List ContainerSummary) (cache : StatsCache) (k : String)
    (h : (cache.lookup k).isSome = true) :
    (((update cache cs).1.lookup k).isSome = true) := by
  rw [update_cache_eq, lookup_append]
  cases hc : cache.lookup k with
  | none => rw [hc] at h; simp at h
  | some v => simp [Option.orElse]

theorem update_covers (cs : List ContainerSummary) :
    ∀ cache : StatsCache, (∀ c ∈ cs, c.id ≠ none) → ∀ c ∈ cs, ∀ i, c.id = some i →
      (((update cache cs).1.lookup i).isSome = true) := by
  induction cs with
  | nil =>
    intro cache _ c hc
    simp at hc
  | cons c0 rest ih =>
    intro cache hAll c hc i hci
    cases hid : c0.id with
    | none => exact absurd hid (hAll c0 (List.mem_cons_self _ _))
    | some id =>
      by_cases hmem : (cache.lookup id).isSome
      · rw [update, hid]
        simp only [hmem, if_true]
        rcases List.mem_cons.mp hc with h | h
        · subst h
          rw [hci] at hid
          injection hid with hii
          subst hii
          exact update_extends rest cache i hmem
        · exact ih cache (fun c2 h2 => hAll c2 (List.mem_cons_of_mem _ h2)) c h i hci
      · rw [update, hid]
        simp only [hmem, if_false]
        have hnew : ((cache ++ [(id, none)]).lookup id).isSome = true := by
          rw [lookup_append, Option.not_isSome_iff_eq_none.mp hmem]
          simp [Option.orElse, List.lookup]
        rcases List.mem_cons.mp hc with h | h
        · subst h
          rw [hci] at hid
          injection hid with hii
          subst hii
          exact update_extends rest (cache ++ [(i, none)]) i hnew
        · exact ih (cache ++ [(id, none)])
            (fun c2 h2 => hAll c2 (List.mem_cons_of_mem _ h2)) c h i hci

theorem recv_stats_ok_run (oks : List Stats) :
    ∀ cell : Option Stats, recv_stats cell (oks.map Except.ok) = (none, Except.ok ()) := by
  induction oks with
  | nil => intro cell; rfl
  | cons s rest ih => intro cell; exact ih (some s)

/-- C7: the StatsCache key set only grows.  One discovery-tick `update`
leaves the existing entries untouched and appends exactly one empty cell
per newly listed id (the spawned-poller list), that list has no
duplicates (an id already present — including one just inserted — is
skipped, so no second poller is ever started), every spawned id was
absent before and comes from the listing, and — when every listed
summary carries an id — every listed id is a key afterwards; a poller
whose stream ends without error clears its cell back to empty (the key,
living in the map and not in the cell, is untouched). -/
theorem statscache_keys_only_grow (cache : StatsCache) (cs : List ContainerSummary) :
    (update cache cs).1 = cache ++ ((update cache cs).2.1.map fun i => (i, none)) ∧
    (update cache cs).2.1.Nodup ∧
    (∀ i ∈ (update cache cs).2.1, cache.lookup i = none ∧ ∃ c ∈ cs, c.id = some i) ∧
    ((∀ c ∈ cs, c.id ≠ none) → ∀ c ∈ cs, ∀ i, c.id = some i →
      (((update cache cs).1.lookup i).isSome = true)) ∧
    (∀ (oks : List Stats) (cell : Option Stats),
      recv_stats cell (oks.map Except.ok) = (none, Except.ok ())) := by
  refine ⟨update_cache_eq cs cache, update_spawned_nodup cs cache, ?_,
    update_covers cs cache, fun oks cell => recv_stats_ok_run oks cell⟩
  intro i hi
  exact ⟨update_spawned_new cs cache i hi, update_spawned_listed cs cache i hi⟩

/-- Witness for C7 at a concrete tick: a cache holding key "old" and a
listing of the new id "X" plus the known "old" spawns exactly the poller
for "X", appends its empty cell, yields "X" as a key, and a finished
error-free stream clears a populated cell. -/
theorem statscache_keys_only_grow_witness :
    (update [("old", none)] [⟨some "X"⟩, ⟨some "old"⟩]).1 =
      [("old", none)] ++
        ((update [("old", none)] [⟨some "X"⟩, ⟨some "old"⟩]).2.1.map fun i => (i, none)) ∧
    (((update [("old", none)] [⟨some "X"⟩, ⟨some "old"⟩]).1.lookup "X").isSome = true) ∧
    recv_stats (some sparseStat) ([sparseStat].map Except.ok) = (none, Except.ok ()) := by
  have h := statscache_keys_only_grow [("old", none)] [⟨some "X"⟩, ⟨some "old"⟩]
  exact ⟨h.1, h.2.2.2.1 (by decide) ⟨some "X"⟩ (by simp) "X" rfl,
    h.2.2.2.2 [sparseStat] (some sparseStat)⟩

/-- C10: an `Err` item on a container's metrics stream makes
`recv_stats` return that error immediately, leaving the cell holding the
last successfully stored snapshot (the initial contents if no sample
preceded the error) — the post-error items and the end-of-stream `take`
are never reached; the cell is cleared back to empty exactly when the
stream ends without yielding an error. -/
theorem recv_stats_error_keeps_last_snapshot (oks : List Stats) (e : String)
    (post : List (Except String Stats)) (cell : Option Stats) :
    recv_stats cell (oks.map Except.ok ++ Except.error e :: post) =
      (oks.foldl (fun _ s => some s) cell, Except.error e) ∧
    recv_stats cell (oks.map Except.ok) = (none, Except.ok ()) := by
  constructor
  · induction oks generalizing cell with
    | nil => rfl
    | cons s rest ih => exact ih (some s)
  · exact recv_stats_ok_run oks cell

/-- Lock-related events of one task, for the suspension analysis of the
stats loops.  Awaiting a `tokio::sync::Mutex` (or any other `.await`) is
a suspension point, written `suspend`; `acqCache`/`relCache` delimit
holding the `Mutex<Containers>` of stats.rs line 159, and
`acqCell i`/`relCell i` delimit holding the per-container cell mutex of
stats.rs line 46. -/
inductive LockEvent
  | acqCache
  | relCache
  | acqCell (i : Nat)
  | relCell (i : Nat)
  | suspend
deriving DecidableEq, Repr

/-- Whether the trace suspends while the cache (Containers map) lock is
held; `held` carries the lock state into the trace. -/
def cacheHeldAux : List LockEvent → Bool → Bool
  | [], _ => false
  | LockEvent.acqCache :: rest, _ => cacheHeldAux rest true
  | LockEvent.relCache :: rest, _ => cacheHeldAux rest false
  | LockEvent.suspend :: rest, held => held || cacheHeldAux rest held
  | _ :: rest, held => cacheHeldAux rest held

/-- Whether the trace suspends while cell `j`'s lock is held. -/
def cellHeldAux (j : Nat) : List LockEvent → Bool → Bool
  | [], _ => false
  | LockEvent.acqCell i :: rest, held => cellHeldAux j rest (if i = j then true else held)
  | LockEvent.relCell i :: rest, held => cellHeldAux j rest (if i = j then false else held)
  | LockEvent.suspend :: rest, held => held || cellHeldAux j rest held
  | _ :: rest, held => cellHeldAux j rest held

/-- A trace suspends while holding the cache lock. -/
def cacheHeldAcrossSuspend (trace : List LockEvent) : Bool :=
  cacheHeldAux trace false

/-- A trace suspends while holding cell `j`'s lock. -/
def cellHeldAcrossSuspend (j : Nat) (trace : List LockEvent) : Bool :=
  cellHeldAux j trace false

/-- The lock/suspension trace of one render pass over `n` cached cells
(stats.rs lines 113-151): `stats.lock().await` suspends then acquires
the cache lock, whose guard (a temporary of the `for` head) lives for
the whole loop; each iteration then suspends on `stat.lock().await`,
acquires that cell's lock, reads, and drops the cell guard at the end of
the iteration; the cache guard drops after the loop. -/
def renderLockTrace (n : Nat) : List LockEvent :=
  LockEvent.suspend :: LockEvent.acqCache ::
    (((List.range n).map fun i =>
      [LockEvent.suspend, LockEvent.acqCell i, LockEvent.relCell i]).flatten ++
      [LockEvent.relCache])

/-- The lock/suspension trace of one poller cell write
(`stat.lock().await.replace(..)`, stats.rs line 78) or of the final
`take` (line 81): suspend on the cell lock, mutate, drop the guard at
the end of the statement. -/
def pollerCellTrace (i : Nat) : List LockEvent :=
  [LockEvent.suspend, LockEvent.acqCell i, LockEvent.relCell i]

/-- The lock/suspension trace of one discovery-tick cache update
(stats.rs lines 193-197): suspend on the cache lock, run the `update`
body (which has no await of its own), drop the guard. -/
def discoveryLockTrace : List LockEvent :=
  [LockEvent.suspend, LockEvent.acqCache, LockEvent.relCache]

/-- C9 counterexample: with a single cached container, the render pass
holds the cache lock across a suspension point — the await of that
container's cell lock — so "never held across a suspension point" fails
for the StatsCache lock. -/
theorem render_holds_cache_lock_across_suspend :
    cacheHeldAcrossSuspend (renderLockTrace 1) = true := by
  decide

theorem cellHeldAux_segs (j : Nat) (l : List Nat) :
    cellHeldAux j (((l.map fun i =>
        [LockEvent.suspend, LockEvent.acqCell i, LockEvent.relCell i]).flatten ++
        [LockEvent.relCache])) false = false := by
  induction l with
  | nil => rfl
  | cons i rest ih =>
    have hshape : (((i :: rest).map fun i =>
        [LockEvent.suspend, LockEvent.acqCell i, LockEvent.relCell i]).flatten ++
        [LockEvent.relCache]) =
        LockEvent.suspend :: LockEvent.acqCell i :: LockEvent.relCell i ::
          (((rest.map fun i =>
            [LockEvent.suspend, LockEvent.acqCell i, LockEvent.relCell i]).flatten ++
            [LockEvent.relCache])) := by
      simp
    rw [hshape]
    by_cases hij : i = j <;> simp [cellHeldAux, hij, ih]

/-- C9 amended: the pollers' cell writes and final take, and the
discovery tick's map update, hold their locks only for the duration of
the cell or map operation (no suspension while held), and the render
pass never suspends while holding an individual cell lock; but the
render pass acquires the cache lock for the whole pass and, whenever at
least one container is cached, holds it across the await of a cell
lock, a suspension point. -/
theorem stats_lock_discipline (n i j : Nat) (h : 1 ≤ n) :
    cacheHeldAcrossSuspend (renderLockTrace n) = true ∧
    cacheHeldAcrossSuspend (pollerCellTrace i) = false ∧
    cellHeldAcrossSuspend j (pollerCellTrace i) = false ∧
    cacheHeldAcrossSuspend discoveryLockTrace = false ∧
    cellHeldAcrossSuspend j (renderLockTrace n) = false := by
  refine ⟨?_, rfl, rfl, rfl, ?_⟩
  · cases n with
    | zero => exact absurd h (by simp)
    | succ m =>
      simp only [cacheHeldAcrossSuspend, renderLockTrace, List.range_succ_eq_map,
        List.map_cons, List.flatten_cons]
      rfl
  · exact cellHeldAux_segs j (List.range n)

/-- Witness for C9 amended at one cached container and cell index zero. -/
theorem stats_lock_discipline_witness :
    cacheHeldAcrossSuspend (renderLockTrace 1) = true ∧
    cacheHeldAcrossSuspend (pollerCellTrace 0) = false ∧
    cellHeldAcrossSuspend 0 (pollerCellTrace 0) = false ∧
    cacheHeldAcrossSuspend discoveryLockTrace = false ∧
    cellHeldAcrossSuspend 0 (renderLockTrace 1) = false :=
  stats_lock_discipline 1 0 0 (by decide)
